import Mathlib

/-!
# Verification of the Word operation bridge (`public/taskpane.js`)

Shallow embedding of the Socket.IO → Office.js operation bridge.  A Word
table is modelled as a list of rows, each row a list of cell strings.  The
bridge-side handlers are translated function-by-function from
`public/taskpane.js`; host (Word) primitives that the bridge calls are
modelled explicitly where a claim depends on them.
-/

namespace McpWord

/-- A table row: the list of its cell texts. -/
abbrev Row := List String

/-- A table: its list of rows (`Word.Table` viewed as a rectangular grid). -/
abbrev Table := List Row

/-- `(args.indexes || []).map(Number).sort((a,b)=>b-a)` — numeric sort in
descending order (taskpane.js lines 247 and 258). -/
def sortDesc (l : List Nat) : List Nat := l.insertionSort (· ≥ ·)

/-- One iteration of `try { t.rows.getItemAt(i).delete(); } catch {}`:
deleting row `i`; an out-of-range index throws in the host and the handler
swallows it, which `List.eraseIdx`'s out-of-range no-op models exactly. -/
def deleteRow (rows : Table) (i : Nat) : Table := rows.eraseIdx i

/-- One iteration of `try { t.columns.getItemAt(i).delete(); } catch {}`:
deleting column `j` removes cell `j` from every row; out of range is a
no-op (exception swallowed). -/
def deleteColumn (rows : Table) (j : Nat) : Table :=
  rows.map (fun r => r.eraseIdx j)

/-- `word:table.deleteRows` handler core (taskpane.js lines 243–252): sort
the indexes descending, delete each, report `deleted: idx.length`. -/
def deleteRows (t : Table) (indexes : List Nat) : Table × Nat :=
  let idx := sortDesc indexes
  (idx.foldl deleteRow t, idx.length)

/-- `word:table.deleteColumns` handler core (taskpane.js lines 254–263). -/
def deleteColumns (t : Table) (indexes : List Nat) : Table × Nat :=
  let idx := sortDesc indexes
  (idx.foldl deleteColumn t, idx.length)

instance : IsTotal Nat (· ≥ ·) := ⟨fun a b => le_total b a⟩

instance : IsTrans Nat (· ≥ ·) := ⟨fun _ _ _ h1 h2 => le_trans h2 h1⟩

instance : IsAntisymm Nat (· ≥ ·) := ⟨fun _ _ h1 h2 => le_antisymm h2 h1⟩

/-- Two permutations of the same index multiset have the same descending
sort: the sorted list is unique. -/
theorem sortDesc_eq_of_perm {l1 l2 : List Nat} (h : l1.Perm l2) :
    sortDesc l1 = sortDesc l2 :=
  List.eq_of_perm_of_sorted
    (((List.perm_insertionSort _ l1).trans h).trans
      (List.perm_insertionSort _ l2).symm)
    (List.sorted_insertionSort _ l1) (List.sorted_insertionSort _ l2)

/-- C1: `deleteRows`/`deleteColumns` process the requested indexes in
descending numeric order, so any permutation of the same index list yields
the identical final table (shape and cell contents) and the identical
reported count. -/
theorem delete_perm_invariant (t : Table) (idx1 idx2 : List Nat)
    (h : idx1.Perm idx2) :
    deleteRows t idx1 = deleteRows t idx2 ∧
    deleteColumns t idx1 = deleteColumns t idx2 := by
  unfold deleteRows deleteColumns
  rw [sortDesc_eq_of_perm h]
  exact ⟨rfl, rfl⟩

/-- Witness for C1 at the spec's own example: `[0,2,4]` and `[4,2,0]` on a
concrete 5×2 table produce identical tables. -/
theorem delete_perm_invariant_witness :
    deleteRows [["a","b"],["c","d"],["e","f"],["g","h"],["i","j"]] [0,2,4] =
      deleteRows [["a","b"],["c","d"],["e","f"],["g","h"],["i","j"]] [4,2,0] ∧
    deleteColumns [["a","b"],["c","d"],["e","f"],["g","h"],["i","j"]] [0,2,4] =
      deleteColumns [["a","b"],["c","d"],["e","f"],["g","h"],["i","j"]] [4,2,0] :=
  delete_perm_invariant _ [0,2,4] [4,2,0] (by decide)

/-! ## Result envelope and scope resolution -/

/-- The `word:result` envelope (taskpane.js lines 40–46): `respond` emits
`{ok:true, data, diagnostics}`, `respondErr` emits
`{ok:false, code, diagnostics:[msg]}`. -/
structure Envelope (α : Type) where
  ok : Bool
  code : Option String
  data : Option α
  diagnostics : List String
deriving Repr, DecidableEq

/-- `respond(op, data)` — success envelope. -/
def respond {α : Type} (d : α) : Envelope α :=
  { ok := true, code := none, data := some d, diagnostics := [] }

/-- `respondErr(op, err, code = 'E_RUNTIME')` — failure envelope; every
call site in taskpane.js leaves `code` at its default `'E_RUNTIME'`. -/
def respondErr {α : Type} (code : String) (msg : String) : Envelope α :=
  { ok := false, code := some code, data := none, diagnostics := [msg] }

/-- The resolved target of a scope: the live selection, the document body,
or a tracked range looked up in `state.ranges`. -/
inductive Target
  | selection
  | body
  | range (id : String)
deriving Repr, DecidableEq

/-- The bridge's handle registry `state.ranges` (taskpane.js line 8),
modelled by the set of issued range ids. -/
structure Registry where
  ranges : List String
deriving Repr, DecidableEq

/-- JavaScript's `s.startsWith(p)`, computed on the character lists so the
kernel can evaluate it. -/
def strStartsWith (s p : String) : Bool := p.data.isPrefixOf s.data

/-- `getTarget(context, scope)` (taskpane.js lines 48–57): falsy or
`'selection'` → the live selection; `'document'` → the body; a
`'rangeId:'`-prefixed string → registry lookup, throwing
`range not found: <scope>` when absent; anything else falls through to the
final `return context.document.getSelection()`. -/
def getTarget (st : Registry) (scope : Option String) : Except String Target :=
  match scope with
  | none => .ok .selection
  | some s =>
    if s = "" ∨ s = "selection" then .ok .selection
    else if s = "document" then .ok .body
    else if strStartsWith s "rangeId:" then
      if s ∈ st.ranges then .ok (.range s) else .error ("range not found: " ++ s)
    else .ok .selection

/-- The common handler shape
`try { const target = await getTarget(context, scope); … respond(op, …) }
catch (e) { respondErr(op, e) }`: a thrown scope resolution reaches the
catch, which reports the default `E_RUNTIME` code. -/
def runOp {α : Type} (st : Registry) (scope : Option String)
    (k : Target → α) : Envelope α :=
  match getTarget st scope with
  | .error msg => respondErr "E_RUNTIME" msg
  | .ok t => respond (k t)

/-- C3 counterexample: resolving the never-issued handle
`rangeId:deadbeef` fails, but the envelope's code is the generic
`E_RUNTIME`, not `E_NOT_FOUND` (nor `NotFound`) as the claim states. -/
theorem unknownHandle_code_not_notFound :
    (runOp ⟨[]⟩ (some "rangeId:deadbeef") (fun _ => (0 : Nat))).ok = false ∧
    (runOp ⟨[]⟩ (some "rangeId:deadbeef") (fun _ => (0 : Nat))).code =
      some "E_RUNTIME" ∧
    (some "E_RUNTIME" : Option String) ≠ some "E_NOT_FOUND" ∧
    (some "E_RUNTIME" : Option String) ≠ some "NotFound" := by
  refine ⟨rfl, rfl, by decide, by decide⟩

/-- C3 amended: every operation resolving a handle-form scope that was
never issued fails (`ok:false`), and the error envelope carries the
bridge's single generic code `E_RUNTIME` with the `range not found`
message (the bridge has no release operation and never emits a NotFound
code). -/
theorem unknownHandle_fails_runtime {α : Type} (st : Registry) (s : String)
    (k : Target → α) (hpre : strStartsWith s "rangeId:" = true)
    (habs : s ∉ st.ranges) :
    runOp st (some s) k = respondErr "E_RUNTIME" ("range not found: " ++ s) := by
  have hne : ¬(s = "" ∨ s = "selection") := by
    rintro (rfl | rfl) <;> exact absurd hpre (by decide)
  have hnd : s ≠ "document" := by rintro rfl; exact absurd hpre (by decide)
  simp [runOp, getTarget, hne, hnd, hpre, habs]

/-- Witness for C3's amended theorem at a concrete unknown handle. -/
theorem unknownHandle_fails_runtime_witness :
    runOp ⟨["rangeId:issued1"]⟩ (some "rangeId:ghost") (fun t => t) =
      respondErr "E_RUNTIME" "range not found: rangeId:ghost" :=
  unknownHandle_fails_runtime ⟨["rangeId:issued1"]⟩ "rangeId:ghost"
    (fun t => t) (by decide) (by decide)

/-- C4 counterexample: the unrecognized scope string `"bogus"` does not
fail with `InvalidArgument` (nor any error): the operation proceeds
against the current selection and succeeds. -/
theorem unknownScope_no_invalidArgument :
    runOp ⟨[]⟩ (some "bogus") (fun t => t) = respond Target.selection ∧
    (runOp ⟨[]⟩ (some "bogus") (fun t => t)).ok = true ∧
    (runOp ⟨[]⟩ (some "bogus") (fun t => t)).code = none := by
  refine ⟨rfl, rfl, rfl⟩

/-- C4 amended: every scope string that is not `selection`, not
`document`, and not handle-form falls through `getTarget`'s final
`return context.document.getSelection()`: the operation silently proceeds
against the current selection and no `InvalidArgument` (or any) error is
raised. -/
theorem unknownScope_falls_back_to_selection {α : Type} (st : Registry)
    (s : String) (k : Target → α) (h1 : s ≠ "selection") (h2 : s ≠ "document")
    (h3 : strStartsWith s "rangeId:" = false) :
    runOp st (some s) k = respond (k Target.selection) := by
  by_cases he : s = ""
  · subst he; simp [runOp, getTarget]
  · simp [runOp, getTarget, he, h1, h2, h3]

/-- Witness for C4's amended theorem at the concrete scope `"bogus"`. -/
theorem unknownScope_falls_back_witness :
    runOp ⟨["rangeId:issued1"]⟩ (some "bogus") (fun t => t) =
      respond Target.selection :=
  unknownScope_falls_back_to_selection ⟨["rangeId:issued1"]⟩ "bogus"
    (fun t => t) (by decide) (by decide) (by decide)

/-! ## Search and replace -/

/-- The options object handed to the host `base.search` primitive
(`Word.SearchOptions`). -/
structure SearchOptions where
  matchCase : Bool
  matchWholeWord : Bool
  matchPrefix : Bool
  matchSuffix : Bool
  ignoreSpace : Bool
  ignorePunct : Bool
  matchWildcards : Bool
deriving Repr, DecidableEq

/-- Arguments of the `word:search` event (tool.md `search`). -/
structure SearchArgs where
  query : String
  maxResults : Option Nat
  matchCase : Bool
  matchWholeWord : Bool
  matchPrefix : Bool
  matchSuffix : Bool
  ignoreSpace : Bool
  ignorePunct : Bool
  useRegex : Bool
deriving Repr, DecidableEq

/-- The options object the `word:search` handler builds (taskpane.js lines
104–112): all seven match options are forwarded
(`matchWildcards: !!args.useRegex`). -/
def searchOptionsOfSearch (a : SearchArgs) : SearchOptions :=
  { matchCase := a.matchCase, matchWholeWord := a.matchWholeWord,
    matchPrefix := a.matchPrefix, matchSuffix := a.matchSuffix,
    ignoreSpace := a.ignoreSpace, ignorePunct := a.ignorePunct,
    matchWildcards := a.useRegex }

/-- One entry of the `word:search` result list: `{ rangeId, text }`. -/
structure SearchHit where
  rangeId : String
  text : String
deriving Repr, DecidableEq

/-- The `word:search` handler (taskpane.js lines 100–127): run the host
search, then for *every* item register a tracked handle and push
`{rangeId, text}` — `args.maxResults` is never read and no truncation
occurs.  `hostSearch` stands for the host primitive `base.search`;
`ctr` numbers the generated ids (`genId('rangeId')`). -/
def searchHandler (hostSearch : String → SearchOptions → List String)
    (st : Registry) (ctr : Nat) (args : SearchArgs) :
    Registry × Envelope (List SearchHit) :=
  let results := hostSearch args.query (searchOptionsOfSearch args)
  let out := results.enum.map
    (fun p => SearchHit.mk ("rangeId:" ++ toString (ctr + p.1)) p.2)
  ({ ranges := st.ranges ++ out.map SearchHit.rangeId }, respond out)

/-- C5 (refuted): the `word:search` handler ignores `maxResults`
entirely — the result list always has one entry (and one registered
handle) per host hit, identically for any two `maxResults` values. -/
theorem searchHandler_ignores_maxResults
    (hostSearch : String → SearchOptions → List String) (st : Registry)
    (ctr : Nat) (args : SearchArgs) (m : Option Nat) :
    searchHandler hostSearch st ctr args =
      searchHandler hostSearch st ctr { args with maxResults := m } ∧
    (searchHandler hostSearch st ctr args).2.data.map List.length =
      some (hostSearch args.query (searchOptionsOfSearch args)).length ∧
    (searchHandler hostSearch st ctr args).1.ranges.length =
      st.ranges.length +
        (hostSearch args.query (searchOptionsOfSearch args)).length := by
  refine ⟨rfl, ?_, ?_⟩
  · simp [searchHandler, respond]
  · simp [searchHandler]

/-- C5 failing input evaluated: a host search with 101 hits and
`maxResults` left at its documented default (absent, default 100) returns
all 101 results and registers 101 handles — more than the documented
bound of 100. -/
theorem searchHandler_no_truncation_at_101 :
    ((searchHandler (fun _ _ => List.replicate 101 "x") ⟨[]⟩ 0
        { query := "x", maxResults := none, matchCase := false,
          matchWholeWord := false, matchPrefix := false, matchSuffix := false,
          ignoreSpace := false, ignorePunct := false,
          useRegex := false }).2.data.map List.length = some 101) ∧
    ((searchHandler (fun _ _ => List.replicate 101 "x") ⟨[]⟩ 0
        { query := "x", maxResults := none, matchCase := false,
          matchWholeWord := false, matchPrefix := false, matchSuffix := false,
          ignoreSpace := false, ignorePunct := false,
          useRegex := false }).1.ranges.length = 101) ∧ 100 < 101 := by
  refine ⟨?_, ?_, by decide⟩ <;> simp [searchHandler, respond]

/-- Arguments of the `word:replace` event in its `target = "searchQuery"`
form (tool.md `replace`): the seven match options, the replacement text
and the mode literal (`replaceFirst | replaceAll`, optional). -/
structure ReplaceArgs where
  query : String
  replaceWith : String
  mode : Option String
  matchCase : Bool
  matchWholeWord : Bool
  matchPrefix : Bool
  matchSuffix : Bool
  ignoreSpace : Bool
  ignorePunct : Bool
  useRegex : Bool
deriving Repr, DecidableEq

/-- The options object the `word:replace` handler builds (taskpane.js
lines 138–142): only `matchCase`, `matchWholeWord` and `matchPrefix` are
forwarded; the remaining `Word.SearchOptions` fields are absent, i.e. at
their `false` defaults. -/
def searchOptionsOfReplace (a : ReplaceArgs) : SearchOptions :=
  { matchCase := a.matchCase, matchWholeWord := a.matchWholeWord,
    matchPrefix := a.matchPrefix, matchSuffix := false, ignoreSpace := false,
    ignorePunct := false, matchWildcards := false }

/-- The `target === 'searchQuery'` branch of the `word:replace` handler
(taskpane.js lines 135–146) over a document modelled as a list of tokens:
`hostSearch` returns the hit positions; `count` is
`mode === 'replaceFirst' ? Math.min(1, items.length) : items.length`; the
loop performs `replaceOne(items[i], replaceWith)` (`insertText` with
`Replace`), modelled by writing the replacement at each hit position. -/
def replaceSearchQuery (hostSearch : String → SearchOptions → List Nat)
    (doc : List String) (args : ReplaceArgs) : List String × Nat :=
  let hits := hostSearch args.query (searchOptionsOfReplace args)
  let count := if args.mode = some "replaceFirst" then min 1 hits.length
    else hits.length
  ((hits.take count).foldl (fun d i => d.set i args.replaceWith) doc, count)

/-- The `word:search` arguments carrying the same match options as a
replace request (for contrasting the two handlers' option forwarding). -/
def toSearchArgs (a : ReplaceArgs) : SearchArgs :=
  { query := a.query, maxResults := none, matchCase := a.matchCase,
    matchWholeWord := a.matchWholeWord, matchPrefix := a.matchPrefix,
    matchSuffix := a.matchSuffix, ignoreSpace := a.ignoreSpace,
    ignorePunct := a.ignorePunct, useRegex := a.useRegex }

/-- C9: two replace requests differing only in `matchSuffix`,
`ignoreSpace`, `ignorePunct` or `useRegex` issue the identical host search
and produce the identical document and count, for every host search
function — while the `word:search` handler's options object does
distinguish them. -/
theorem replace_ignores_extra_match_options
    (hostSearch : String → SearchOptions → List Nat) (doc : List String)
    (a1 a2 : ReplaceArgs) (hq : a1.query = a2.query)
    (hr : a1.replaceWith = a2.replaceWith) (hm : a1.mode = a2.mode)
    (hc : a1.matchCase = a2.matchCase)
    (hw : a1.matchWholeWord = a2.matchWholeWord)
    (hp : a1.matchPrefix = a2.matchPrefix) :
    searchOptionsOfReplace a1 = searchOptionsOfReplace a2 ∧
    replaceSearchQuery hostSearch doc a1 = replaceSearchQuery hostSearch doc a2 ∧
    ((a1.matchSuffix ≠ a2.matchSuffix ∨ a1.ignoreSpace ≠ a2.ignoreSpace ∨
      a1.ignorePunct ≠ a2.ignorePunct ∨ a1.useRegex ≠ a2.useRegex) →
      searchOptionsOfSearch (toSearchArgs a1) ≠
        searchOptionsOfSearch (toSearchArgs a2)) := by
  have hopts : searchOptionsOfReplace a1 = searchOptionsOfReplace a2 := by
    simp [searchOptionsOfReplace, hc, hw, hp]
  refine ⟨hopts, ?_, ?_⟩
  · simp [replaceSearchQuery, hq, hr, hm, hopts]
  · intro hdiff heq
    simp only [searchOptionsOfSearch, toSearchArgs, SearchOptions.mk.injEq] at heq
    rcases hdiff with h | h | h | h <;> exact h (by tauto)

/-- Witness for C9: a concrete host search, document, and two requests
differing in all four ignored options yield identical outcomes. -/
theorem replace_ignores_extra_match_options_witness :
    replaceSearchQuery (fun _ o => if o.matchSuffix then [2] else [0, 2])
        ["a", "b", "c"]
        { query := "q", replaceWith := "r", mode := none, matchCase := true,
          matchWholeWord := false, matchPrefix := true, matchSuffix := true,
          ignoreSpace := true, ignorePunct := true, useRegex := true } =
      replaceSearchQuery (fun _ o => if o.matchSuffix then [2] else [0, 2])
        ["a", "b", "c"]
        { query := "q", replaceWith := "r", mode := none, matchCase := true,
          matchWholeWord := false, matchPrefix := true, matchSuffix := false,
          ignoreSpace := false, ignorePunct := false, useRegex := false } :=
  (replace_ignores_extra_match_options
    (fun _ o => if o.matchSuffix then [2] else [0, 2]) ["a", "b", "c"]
    _ _ rfl rfl rfl rfl rfl rfl).2.1

/-- The token-document host search: the positions whose token equals the
query (host model instantiating `base.search` for the replace claim). -/
def findHits (doc : List String) (q : String) : List Nat :=
  (List.range doc.length).filter (fun i => doc.getD i "" = q)

/-- `word:replace` with `target = "searchQuery"` over the token-document
host model. -/
def replaceByQuery (doc : List String) (args : ReplaceArgs) :
    List String × Nat :=
  replaceSearchQuery (fun q _ => findHits doc q) doc args

theorem foldl_set_length (r : String) :
    ∀ (l : List Nat) (d : List String),
      (l.foldl (fun d i => d.set i r) d).length = d.length
  | [], _ => rfl
  | i :: l, d => by
    rw [List.foldl_cons, foldl_set_length r l, List.length_set]

theorem foldl_set_getElem? (r : String) :
    ∀ (l : List Nat) (d : List String) (j : Nat), j < d.length →
      (l.foldl (fun d i => d.set i r) d)[j]? =
        if j ∈ l then some r else d[j]?
  | [], d, j, _ => by simp
  | i :: l, d, j, hj => by
    rw [List.foldl_cons,
      foldl_set_getElem? r l (d.set i r) j (by rw [List.length_set]; exact hj)]
    by_cases hjl : j ∈ l
    · simp [hjl]
    · by_cases hij : i = j
      · subst hij
        simp [hjl, List.getElem?_set, hj]
      · have hji : ¬j = i := fun h => hij h.symm
        simp [hjl, hji, hij, List.getElem?_set]

theorem mem_findHits (doc : List String) (q : String) (j : Nat) :
    j ∈ findHits doc q ↔ j < doc.length ∧ doc.getD j "" = q := by
  simp [findHits, List.mem_filter, List.mem_range]

/-- C2: for `target = "searchQuery"`, when `mode` is absent or
`replaceAll` (the wire literal for "all", the default) every hit is
replaced and the count equals the number of hits, so no occurrence of the
query remains; when `mode` is `replaceFirst` (the wire literal for
"first") only the earliest hit is replaced and the count is
`min 1 (number of hits)`. -/
theorem replaceByQuery_modes (doc : List String) (args : ReplaceArgs) :
    ((args.mode = none ∨ args.mode = some "replaceAll") →
      (replaceByQuery doc args).2 = (findHits doc args.query).length ∧
      (args.replaceWith ≠ args.query →
        findHits (replaceByQuery doc args).1 args.query = [])) ∧
    (args.mode = some "replaceFirst" →
      (replaceByQuery doc args).2 = min 1 (findHits doc args.query).length ∧
      (replaceByQuery doc args).1 =
        (match findHits doc args.query with
          | [] => doc
          | i :: _ => doc.set i args.replaceWith)) := by
  constructor
  · intro hmode
    have hnotfirst : ¬args.mode = some "replaceFirst" := by
      rcases hmode with h | h <;> rw [h] <;> simp
    constructor
    · simp [replaceByQuery, replaceSearchQuery, hnotfirst]
    · intro hne
      set r := args.replaceWith with hr
      set q := args.query with hq
      set hits := findHits doc q with hhits
      set doc2 := (replaceByQuery doc args).1 with hdoc2
      have hdoc2' : doc2 = hits.foldl (fun d i => d.set i r) doc := by
        simp [hdoc2, replaceByQuery, replaceSearchQuery, hnotfirst, ← hhits,
          List.take_length]
      have hlen : doc2.length = doc.length := by
        rw [hdoc2']; exact foldl_set_length r hits doc
      rw [findHits, List.filter_eq_nil_iff]
      intro j hjr
      rw [List.mem_range, hlen] at hjr
      simp only [decide_eq_true_eq]
      have hget : doc2[j]? = if j ∈ hits then some r else doc[j]? := by
        rw [hdoc2']; exact foldl_set_getElem? r hits doc j hjr
      intro habs
      rw [List.getD_eq_getElem?_getD, hget] at habs
      by_cases hjh : j ∈ hits
      · rw [if_pos hjh] at habs
        exact hne habs
      · rw [if_neg hjh] at habs
        rw [← List.getD_eq_getElem?_getD] at habs
        exact hjh ((mem_findHits doc q j).mpr ⟨hjr, habs⟩)
  · intro hmode
    constructor
    · simp [replaceByQuery, replaceSearchQuery, hmode]
    · cases hfh : findHits doc args.query with
      | nil => simp [replaceByQuery, replaceSearchQuery, hmode, hfh]
      | cons i t => simp [replaceByQuery, replaceSearchQuery, hmode, hfh]

/-- Witness for C2 at the spec's example: a four-token document with three
occurrences of `2024`; `replaceAll` replaces all three (count 3, none
left), `replaceFirst` reports count 1. -/
theorem replaceByQuery_modes_witness :
    (replaceByQuery ["2024", "x", "2024", "2024"]
        { query := "2024", replaceWith := "2025", mode := some "replaceAll",
          matchCase := false, matchWholeWord := false, matchPrefix := false,
          matchSuffix := false, ignoreSpace := false, ignorePunct := false,
          useRegex := false }).2 = 3 ∧
    findHits (replaceByQuery ["2024", "x", "2024", "2024"]
        { query := "2024", replaceWith := "2025", mode := some "replaceAll",
          matchCase := false, matchWholeWord := false, matchPrefix := false,
          matchSuffix := false, ignoreSpace := false, ignorePunct := false,
          useRegex := false }).1 "2024" = [] ∧
    (replaceByQuery ["2024", "x", "2024", "2024"]
        { query := "2024", replaceWith := "2025", mode := some "replaceFirst",
          matchCase := false, matchWholeWord := false, matchPrefix := false,
          matchSuffix := false, ignoreSpace := false, ignorePunct := false,
          useRegex := false }).2 = 1 := by
  have h1 := (replaceByQuery_modes ["2024", "x", "2024", "2024"]
    { query := "2024", replaceWith := "2025", mode := some "replaceAll",
      matchCase := false, matchWholeWord := false, matchPrefix := false,
      matchSuffix := false, ignoreSpace := false, ignorePunct := false,
      useRegex := false }).1 (Or.inr rfl)
  have h2 := (replaceByQuery_modes ["2024", "x", "2024", "2024"]
    { query := "2024", replaceWith := "2025", mode := some "replaceFirst",
      matchCase := false, matchWholeWord := false, matchPrefix := false,
      matchSuffix := false, ignoreSpace := false, ignorePunct := false,
      useRegex := false }).2 rfl
  refine ⟨?_, h1.2 (by decide), ?_⟩
  · rw [h1.1]; decide
  · rw [h2.1]; decide

/-! ## Table delete handlers at the envelope level -/

/-- The tail of the `word:table.deleteRows` handler once the table handle
has resolved: every per-index deletion is wrapped in `try {} catch {}`,
and the response is `respond('table.deleteRows', { deleted: idx.length })`. -/
def deleteRowsHandler (t : Table) (indexes : List Nat) : Envelope Nat × Table :=
  let p := deleteRows t indexes
  (respond p.2, p.1)

/-- The tail of the `word:table.deleteColumns` handler once the table
handle has resolved. -/
def deleteColumnsHandler (t : Table) (indexes : List Nat) :
    Envelope Nat × Table :=
  let p := deleteColumns t indexes
  (respond p.2, p.1)

/-- C10: once the table handle resolves, `deleteRows`/`deleteColumns`
always succeed (every per-index failure is swallowed) and report
`deleted = indexes.length`, whatever the table and however many deletions
actually took effect. -/
theorem delete_count_ignores_failures (t : Table) (indexes : List Nat) :
    (deleteRowsHandler t indexes).1 = respond indexes.length ∧
    (deleteColumnsHandler t indexes).1 = respond indexes.length := by
  have hlen : (sortDesc indexes).length = indexes.length :=
    (List.perm_insertionSort _ indexes).length_eq
  exact ⟨by simp [deleteRowsHandler, deleteRows, hlen],
    by simp [deleteColumnsHandler, deleteColumns, hlen]⟩

/-! ## applyStyle: style merging with caller-selected precedence

The `word:applyStyle` handler (taskpane.js lines 292–345) is embedded as
the sequence of writes it issues to the host document, in program order.
The host's last-writer-wins property semantics is then evaluated over
that trace. -/

/-- One write issued to the host during `word:applyStyle`:
`r.style = name`, a `r.paragraphFormat.<prop> = val` write, a
`r.font.<prop> = val` write, `para.startNewList()`, or
`await context.sync()` (a commit). -/
inductive HostWrite
  | style (name : String)
  | para (prop : String) (val : String)
  | char (prop : String) (val : String)
  | listStart
  | sync
deriving Repr, DecidableEq

/-- `[f v]` when the option is set (the code's `x != null` test), else
nothing. -/
def optWrite {α : Type} (o : Option α) (f : α → HostWrite) : List HostWrite :=
  o.toList.map f

/-- `[f v]` when the string option is truthy (the code's `if (x)` test:
set and non-empty), else nothing. -/
def truthyWrite (o : Option String) (f : String → HostWrite) :
    List HostWrite :=
  match o with
  | none => []
  | some v => if v = "" then [] else [f v]

/-- `args.para` — the paragraph overrides (taskpane.js lines 300–317). -/
structure ParaOverrides where
  alignment : Option String
  lineSpacing : Option Int
  spaceBefore : Option Int
  spaceAfter : Option Int
  leftIndent : Option Int
  rightIndent : Option Int
  firstLineIndent : Option Int
  list : Option String
deriving Repr, DecidableEq

/-- `args.char` — the character overrides (taskpane.js lines 318–335). -/
structure CharOverrides where
  bold : Option Bool
  italic : Option Bool
  underline : Option String
  strikeThrough : Option Bool
  doubleStrikeThrough : Option Bool
  allCaps : Option Bool
  smallCaps : Option Bool
  superscript : Option Bool
  subscript : Option Bool
  fontName : Option String
  fontSize : Option Int
  color : Option String
  highlight : Option String
deriving Repr, DecidableEq

/-- Arguments of `word:applyStyle`. -/
structure ApplyStyleArgs where
  scope : Option String
  precedence : Option String
  namedStyle : Option String
  para : Option ParaOverrides
  char : Option CharOverrides
  resetDirectFormatting : Bool
deriving Repr, DecidableEq

/-- The list segment of `applyPara`: when `p.list` is truthy and not
`'none'`, a sync followed by `startNewList()` on each of the range's
`paraCount` paragraphs. -/
def listPart (pl : Option String) (paraCount : Nat) : List HostWrite :=
  match pl with
  | none => []
  | some v =>
    if v = "" ∨ v = "none" then []
    else HostWrite.sync :: List.replicate paraCount HostWrite.listStart

/-- `applyPara` (taskpane.js lines 300–317): the paragraphFormat writes in
source order, then the list segment. -/
def applyParaTrace (po : Option ParaOverrides) (paraCount : Nat) :
    List HostWrite :=
  match po with
  | none => []
  | some p =>
    truthyWrite p.alignment (fun v => .para "alignment" v) ++
    optWrite p.lineSpacing (fun v => .para "lineSpacing" (toString v)) ++
    optWrite p.spaceBefore (fun v => .para "spaceBefore" (toString v)) ++
    optWrite p.spaceAfter (fun v => .para "spaceAfter" (toString v)) ++
    optWrite p.leftIndent (fun v => .para "leftIndent" (toString v)) ++
    optWrite p.rightIndent (fun v => .para "rightIndent" (toString v)) ++
    optWrite p.firstLineIndent (fun v => .para "firstLineIndent" (toString v)) ++
    listPart p.list paraCount

/-- The font writes of `applyChar` preceding `f.size` (taskpane.js lines
322–331), in source order. -/
def charPre (c : CharOverrides) : List HostWrite :=
  optWrite c.bold (fun v => .char "bold" (toString v)) ++
  optWrite c.italic (fun v => .char "italic" (toString v)) ++
  truthyWrite c.underline (fun v => .char "underline" v) ++
  optWrite c.strikeThrough (fun v => .char "strikeThrough" (toString v)) ++
  optWrite c.doubleStrikeThrough
    (fun v => .char "doubleStrikeThrough" (toString v)) ++
  optWrite c.allCaps (fun v => .char "allCaps" (toString v)) ++
  optWrite c.smallCaps (fun v => .char "smallCaps" (toString v)) ++
  optWrite c.superscript (fun v => .char "superscript" (toString v)) ++
  optWrite c.subscript (fun v => .char "subscript" (toString v)) ++
  truthyWrite c.fontName (fun v => .char "name" v)

/-- The font writes of `applyChar` following `f.size` (taskpane.js lines
333–334). -/
def charPost (c : CharOverrides) : List HostWrite :=
  truthyWrite c.color (fun v => .char "color" v) ++
  truthyWrite c.highlight (fun v => .char "highlightColor" v)

/-- `applyChar` (taskpane.js lines 318–335). -/
def applyCharTrace (co : Option CharOverrides) : List HostWrite :=
  match co with
  | none => []
  | some c =>
    charPre c ++ optWrite c.fontSize (fun v => .char "size" (toString v)) ++
      charPost c

/-- `const order = args.precedence || 'styleThenOverrides'` — a falsy
precedence falls back to the default. -/
def orderOf (precedence : Option String) : String :=
  match precedence with
  | none => "styleThenOverrides"
  | some s => if s = "" then "styleThenOverrides" else s

/-- The full write trace of `word:applyStyle` (taskpane.js lines
337–340): optional reset (`r.style = 'Normal'`), then
`styleThenOverrides` ⇒ named style, sync, paragraph overrides, character
overrides; any other order ⇒ paragraph and character overrides, sync,
named style; and a final sync. -/
def applyStyleTrace (args : ApplyStyleArgs) (paraCount : Nat) :
    List HostWrite :=
  let reset := if args.resetDirectFormatting then [HostWrite.style "Normal"]
    else []
  let named := truthyWrite args.namedStyle HostWrite.style
  let para := applyParaTrace args.para paraCount
  let cw := applyCharTrace args.char
  reset ++
    (if orderOf args.precedence = "styleThenOverrides" then
      named ++ [HostWrite.sync] ++ para ++ cw
    else para ++ cw ++ [HostWrite.sync] ++ named) ++ [HostWrite.sync]

/-- Host model: the effective font size under last-writer-wins property
semantics.  Applying a named style installs the size that style defines
(if any); a direct `f.size` write installs that size; every other write
leaves the size alone. -/
def effSizeStep (styleSize : String → Option String) (cur : Option String)
    (w : HostWrite) : Option String :=
  match w with
  | .style s => (match styleSize s with | some v => some v | none => cur)
  | .char p v => if p = "size" then some v else cur
  | _ => cur

/-- Effective font size after a write trace. -/
def effSize (styleSize : String → Option String) (t : List HostWrite)
    (init : Option String) : Option String :=
  t.foldl (effSizeStep styleSize) init

theorem effSize_append (ss : String → Option String) (t1 t2 : List HostWrite)
    (cur : Option String) :
    effSize ss (t1 ++ t2) cur = effSize ss t2 (effSize ss t1 cur) :=
  List.foldl_append ..

theorem effSize_of_neutral (ss : String → Option String) :
    ∀ (t : List HostWrite) (cur : Option String),
      (∀ w ∈ t, ∀ x, effSizeStep ss x w = x) → effSize ss t cur = cur
  | [], _, _ => rfl
  | w :: t, cur, h => by
    rw [effSize, List.foldl_cons, h w (List.mem_cons_self w t) cur]
    exact effSize_of_neutral ss t cur (fun w' hw' => h w' (List.mem_cons_of_mem w hw'))

theorem mem_optWrite {α : Type} {o : Option α} {f : α → HostWrite}
    {w : HostWrite} (h : w ∈ optWrite o f) : ∃ v, w = f v := by
  cases o with
  | none => simp [optWrite] at h
  | some v =>
    simp [optWrite] at h
    exact ⟨v, h⟩

theorem mem_truthyWrite {o : Option String} {f : String → HostWrite}
    {w : HostWrite} (h : w ∈ truthyWrite o f) : ∃ v, w = f v := by
  cases o with
  | none => simp [truthyWrite] at h
  | some v =>
    by_cases hv : v = "" <;> simp [truthyWrite, hv] at h
    exact ⟨v, h⟩

theorem mem_listPart {pl : Option String} {pc : Nat} {w : HostWrite}
    (h : w ∈ listPart pl pc) :
    w = HostWrite.sync ∨ w = HostWrite.listStart := by
  cases pl with
  | none => simp [listPart] at h
  | some v =>
    rw [listPart] at h
    by_cases hv : v = "" ∨ v = "none"
    · rw [if_pos hv] at h; simp at h
    · rw [if_neg hv] at h
      rcases List.mem_cons.mp h with rfl | h
      · exact Or.inl rfl
      · exact Or.inr (List.eq_of_mem_replicate h)

/-- Paragraph-override writes never touch the font size. -/
theorem applyParaTrace_neutral (ss : String → Option String)
    (po : Option ParaOverrides) (pc : Nat) (cur : Option String) :
    effSize ss (applyParaTrace po pc) cur = cur := by
  apply effSize_of_neutral
  intro w hw x
  cases po with
  | none => simp [applyParaTrace] at hw
  | some p =>
    simp only [applyParaTrace, List.mem_append, or_assoc] at hw
    rcases hw with h | h | h | h | h | h | h | h
    · obtain ⟨v, rfl⟩ := mem_truthyWrite h; rfl
    · obtain ⟨v, rfl⟩ := mem_optWrite h; rfl
    · obtain ⟨v, rfl⟩ := mem_optWrite h; rfl
    · obtain ⟨v, rfl⟩ := mem_optWrite h; rfl
    · obtain ⟨v, rfl⟩ := mem_optWrite h; rfl
    · obtain ⟨v, rfl⟩ := mem_optWrite h; rfl
    · obtain ⟨v, rfl⟩ := mem_optWrite h; rfl
    · rcases mem_listPart h with rfl | rfl <;> rfl

/-- The `charPre` writes never touch the font size. -/
theorem charPre_neutral (ss : String → Option String) (c : CharOverrides)
    (cur : Option String) : effSize ss (charPre c) cur = cur := by
  apply effSize_of_neutral
  intro w hw x
  simp only [charPre, List.mem_append, or_assoc] at hw
  rcases hw with h | h | h | h | h | h | h | h | h | h
  · obtain ⟨v, rfl⟩ := mem_optWrite h; rfl
  · obtain ⟨v, rfl⟩ := mem_optWrite h; rfl
  · obtain ⟨v, rfl⟩ := mem_truthyWrite h; rfl
  · obtain ⟨v, rfl⟩ := mem_optWrite h; rfl
  · obtain ⟨v, rfl⟩ := mem_optWrite h; rfl
  · obtain ⟨v, rfl⟩ := mem_optWrite h; rfl
  · obtain ⟨v, rfl⟩ := mem_optWrite h; rfl
  · obtain ⟨v, rfl⟩ := mem_optWrite h; rfl
  · obtain ⟨v, rfl⟩ := mem_optWrite h; rfl
  · obtain ⟨v, rfl⟩ := mem_truthyWrite h; rfl

/-- The `charPost` writes never touch the font size. -/
theorem charPost_neutral (ss : String → Option String) (c : CharOverrides)
    (cur : Option String) : effSize ss (charPost c) cur = cur := by
  apply effSize_of_neutral
  intro w hw x
  simp only [charPost, List.mem_append, or_assoc] at hw
  rcases hw with h | h
  all_goals obtain ⟨v, rfl⟩ := mem_truthyWrite h; rfl

/-- After the character overrides with `fontSize = n`, the effective size
is `n` whatever it was before. -/
theorem applyCharTrace_size (ss : String → Option String)
    (c : CharOverrides) (n : Int) (hn : c.fontSize = some n)
    (cur : Option String) :
    effSize ss (applyCharTrace (some c)) cur = some (toString n) := by
  rw [applyCharTrace, effSize_append, effSize_append, charPre_neutral, hn]
  rw [show effSize ss (optWrite (some n) (fun v => .char "size" (toString v)))
      cur = some (toString n) from rfl]
  exact charPost_neutral ss c _

/-- C6: with a named style and a character override both setting the font
size, `styleThenOverrides` (the wire literal for "style first", also the
default) writes the named style, commits, then paragraph and character
overrides — so the override size wins; `overridesThenStyle` ("overrides
first") writes the overrides, commits, then the named style — so the
style's size wins; the two orders give opposite outcomes whenever the two
sizes differ. -/
theorem applyStyle_precedence (ss : String → Option String)
    (args : ApplyStyleArgs) (pc : Nat) (s : String) (c : CharOverrides)
    (n : Int) (m : String) (hres : args.resetDirectFormatting = false)
    (hs : args.namedStyle = some s) (hsne : s ≠ "")
    (hc : args.char = some c) (hn : c.fontSize = some n) (hm : ss s = some m) :
    ((args.precedence = none ∨ args.precedence = some "styleThenOverrides") →
      applyStyleTrace args pc =
        [HostWrite.style s, HostWrite.sync] ++ applyParaTrace args.para pc ++
          applyCharTrace args.char ++ [HostWrite.sync] ∧
      effSize ss (applyStyleTrace args pc) none = some (toString n)) ∧
    (args.precedence = some "overridesThenStyle" →
      applyStyleTrace args pc =
        applyParaTrace args.para pc ++ applyCharTrace args.char ++
          [HostWrite.sync, HostWrite.style s, HostWrite.sync] ∧
      effSize ss (applyStyleTrace args pc) none = some m) ∧
    (toString n ≠ m → (some (toString n) : Option String) ≠ some m) := by
  refine ⟨fun hp => ?_, fun hp => ?_,
    fun hne heq => hne (Option.some.inj heq)⟩
  · have ho : orderOf args.precedence = "styleThenOverrides" := by
      rcases hp with h | h <;> simp [orderOf, h]
    have htr : applyStyleTrace args pc =
        [HostWrite.style s, HostWrite.sync] ++ applyParaTrace args.para pc ++
          applyCharTrace args.char ++ [HostWrite.sync] := by
      simp [applyStyleTrace, hres, hs, ho, truthyWrite, hsne,
        List.append_assoc]
    refine ⟨htr, ?_⟩
    rw [htr, effSize_append, effSize_append, effSize_append]
    have h1 : effSize ss [HostWrite.style s, HostWrite.sync] none = some m := by
      simp [effSize, effSizeStep, hm]
    rw [h1, applyParaTrace_neutral, hc, applyCharTrace_size ss c n hn]
    rfl
  · have ho : orderOf args.precedence = "overridesThenStyle" := by
      simp [orderOf, hp]
    have hne2 : orderOf args.precedence ≠ "styleThenOverrides" := by
      rw [ho]; decide
    have htr : applyStyleTrace args pc =
        applyParaTrace args.para pc ++ applyCharTrace args.char ++
          [HostWrite.sync, HostWrite.style s, HostWrite.sync] := by
      simp [applyStyleTrace, hres, hs, hne2, truthyWrite, hsne,
        List.append_assoc]
    refine ⟨htr, ?_⟩
    rw [htr, effSize_append, effSize_append, applyParaTrace_neutral, hc,
      applyCharTrace_size ss c n hn]
    simp [effSize, effSizeStep, hm]

/-- A style table for the C6 witness: `Heading 1` sets font size 24. -/
def styleTableEx : String → Option String :=
  fun name => if name = "Heading 1" then some "24" else none

/-- Character overrides for the C6 witness: direct font size 12. -/
def charEx : CharOverrides :=
  { bold := none, italic := none, underline := none, strikeThrough := none,
    doubleStrikeThrough := none, allCaps := none, smallCaps := none,
    superscript := none, subscript := none, fontName := none,
    fontSize := some 12, color := none, highlight := none }

/-- C6 witness arguments, `styleThenOverrides` order. -/
def argsStyleFirstEx : ApplyStyleArgs :=
  { scope := none, precedence := some "styleThenOverrides",
    namedStyle := some "Heading 1", para := none, char := some charEx,
    resetDirectFormatting := false }

/-- C6 witness arguments, `overridesThenStyle` order. -/
def argsOverridesFirstEx : ApplyStyleArgs :=
  { scope := none, precedence := some "overridesThenStyle",
    namedStyle := some "Heading 1", para := none, char := some charEx,
    resetDirectFormatting := false }

/-- Witness for C6: `Heading 1` sets size 24, the override sets 12;
`styleThenOverrides` ends at 12, `overridesThenStyle` ends at 24 —
opposite outcomes. -/
theorem applyStyle_precedence_witness :
    effSize styleTableEx (applyStyleTrace argsStyleFirstEx 1) none =
      some "12" ∧
    effSize styleTableEx (applyStyleTrace argsOverridesFirstEx 1) none =
      some "24" ∧ (some "12" : Option String) ≠ some "24" := by
  have hA := ((applyStyle_precedence styleTableEx argsStyleFirstEx 1
    "Heading 1" charEx 12 "24" rfl rfl (by decide) rfl rfl (by decide)).1
    (Or.inr rfl)).2
  have hB := ((applyStyle_precedence styleTableEx argsOverridesFirstEx 1
    "Heading 1" charEx 12 "24" rfl rfl (by decide) rfl rfl
    (by decide)).2.1 rfl).2
  exact ⟨by rw [hA]; decide, by rw [hB], by decide⟩

/-! ## applyStyle failure propagation (per-property errors) -/

/-- Which writes the handler wraps in their own `try {} catch {}`:
`r.style = …` (both `applyNamed` and the reset, taskpane.js lines 299 and
337) and `para.startNewList()` (line 314).  The individual
`paragraphFormat` and `font` property writes are not guarded. -/
def guarded : HostWrite → Bool
  | .style _ => true
  | .listStart => true
  | _ => false

/-- Execute a write trace against a host where `fails w = true` means the
setter for `w` raises: a guarded failing write is swallowed (its write is
skipped), an unguarded failing write throws out of `Word.run`, abandoning
everything after it.  Returns the applied writes and the error, if any. -/
def runWrites (fails : HostWrite → Bool) :
    List HostWrite → List HostWrite × Option String
  | [] => ([], none)
  | w :: t =>
    if fails w then
      if guarded w then runWrites fails t
      else ([], some "unsupported property")
    else
      let p := runWrites fails t
      (w :: p.1, p.2)

/-- The `word:applyStyle` handler including its outer
`catch (e) { respondErr('applyStyle', e) }`: an escaped host exception
produces the single `E_RUNTIME` error envelope. -/
def applyStyleHandler (fails : HostWrite → Bool) (args : ApplyStyleArgs)
    (pc : Nat) : Envelope Unit × List HostWrite :=
  let p := runWrites fails (applyStyleTrace args pc)
  match p.2 with
  | none => (respond (), p.1)
  | some m => (respondErr "E_RUNTIME" m, p.1)

/-- Character overrides for C7: bold and italic both requested. -/
def charBoldItalicEx : CharOverrides :=
  { bold := some true, italic := some true, underline := none,
    strikeThrough := none, doubleStrikeThrough := none, allCaps := none,
    smallCaps := none, superscript := none, subscript := none,
    fontName := none, fontSize := none, color := none, highlight := none }

/-- C7 arguments: two character overrides, bold and italic. -/
def argsBoldItalicEx : ApplyStyleArgs :=
  { scope := none, precedence := none, namedStyle := none, para := none,
    char := some charBoldItalicEx, resetDirectFormatting := false }

/-- A host on which the `bold` setter raises. -/
def failsBoldEx : HostWrite → Bool :=
  fun w => w = HostWrite.char "bold" "true"

/-- C7 counterexample: when the host's `bold` setter raises, the remaining
`italic` override is *not* applied, no per-property diagnostics are
accumulated, and the call as a whole fails (`ok:false`, code
`E_RUNTIME`) — contradicting the claim that only the single property
fails. -/
theorem applyStyle_no_partial_failure :
    (applyStyleHandler failsBoldEx argsBoldItalicEx 0).1.ok = false ∧
    (applyStyleHandler failsBoldEx argsBoldItalicEx 0).1.code =
      some "E_RUNTIME" ∧
    HostWrite.char "italic" "true" ∉
      (applyStyleHandler failsBoldEx argsBoldItalicEx 0).2 ∧
    (applyStyleHandler failsBoldEx argsBoldItalicEx 0).1.diagnostics =
      ["unsupported property"] := by
  refine ⟨rfl, rfl, by decide, rfl⟩

theorem runWrites_err_of_unguarded (fails : HostWrite → Bool) :
    ∀ t : List HostWrite,
      (∃ w ∈ t, fails w = true ∧ guarded w = false) →
      (runWrites fails t).2 = some "unsupported property"
  | [], h => absurd h (by simp)
  | w :: t, h => by
    rw [runWrites]
    by_cases hf : fails w
    · by_cases hg : guarded w
      · rw [if_pos hf, if_pos hg]
        apply runWrites_err_of_unguarded fails t
        obtain ⟨u, hu, hfu, hgu⟩ := h
        rcases List.mem_cons.mp hu with rfl | hu
        · rw [hg] at hgu; exact absurd hgu (by decide)
        · exact ⟨u, hu, hfu, hgu⟩
      · rw [if_pos hf, if_neg hg]
    · rw [if_neg hf]
      apply runWrites_err_of_unguarded fails t
      obtain ⟨u, hu, hfu, hgu⟩ := h
      rcases List.mem_cons.mp hu with rfl | hu
      · exact absurd hfu hf
      · exact ⟨u, hu, hfu, hgu⟩

/-- C7 amended: if the host setter of any *unguarded* write of the
`applyStyle` trace raises (the individual paragraph/font property writes
are all unguarded), the whole call fails with the single generic
`E_RUNTIME` envelope — one error diagnostic, no per-property
accumulation, no `Unsupported` code — instead of skipping just that
property. -/
theorem applyStyle_unsupported_aborts (fails : HostWrite → Bool)
    (args : ApplyStyleArgs) (pc : Nat)
    (h : ∃ w ∈ applyStyleTrace args pc, fails w = true ∧ guarded w = false) :
    (applyStyleHandler fails args pc).1 =
      respondErr "E_RUNTIME" "unsupported property" := by
  have he := runWrites_err_of_unguarded fails (applyStyleTrace args pc) h
  rw [applyStyleHandler]
  simp only [he]

/-- Witness for C7's amended theorem at the bold/italic input. -/
theorem applyStyle_unsupported_aborts_witness :
    (applyStyleHandler failsBoldEx argsBoldItalicEx 0).1 =
      respondErr "E_RUNTIME" "unsupported property" :=
  applyStyle_unsupported_aborts failsBoldEx argsBoldItalicEx 0
    ⟨HostWrite.char "bold" "true", by decide, by decide, by decide⟩

/-! ## mergeCells -/

/-- A table plus the regions the host has merged so far. -/
structure TableState where
  grid : Table
  merges : List ((Nat × Nat) × (Nat × Nat))
deriving Repr, DecidableEq

/-- Whether `t.getCell(r, c)` succeeds: non-negative indexes inside the
grid. -/
def cellInRange (g : Table) (r c : Int) : Prop :=
  0 ≤ r ∧ r.toNat < g.length ∧ 0 ≤ c ∧ c.toNat < (g.getD r.toNat []).length

instance (g : Table) (r c : Int) : Decidable (cellInRange g r c) :=
  inferInstanceAs (Decidable (_ ∧ _ ∧ _ ∧ _))

/-- `t.getCell(row, col)` — the host cell accessor; throws when out of
range. -/
def getCell (g : Table) (r c : Int) : Except String (Nat × Nat) :=
  if cellInRange g r c then .ok (r.toNat, c.toNat)
  else .error "cell out of range"

/-- Host model of `r1.merge(r2)`: record the merged region; merging a
cell with itself is a trivial no-op that succeeds and leaves the table
unchanged. -/
def hostMerge (ts : TableState) (c1 c2 : Nat × Nat) : TableState :=
  if c1 = c2 then ts else { ts with merges := ts.merges ++ [(c1, c2)] }

theorem hostMerge_grid (ts : TableState) (c1 c2 : Nat × Nat) :
    (hostMerge ts c1 c2).grid = ts.grid := by
  unfold hostMerge
  split <;> rfl

/-- `word:table.mergeCells` handler (taskpane.js lines 265–275), after the
table handle has resolved: `r1 = t.getCell(startRow, startCol)`,
`r2 = t.getCell(startRow + rowSpan - 1, startCol + colSpan - 1)`,
`r1.merge(r2)`; a thrown `getCell` is reported by the outer catch. -/
def mergeCells (ts : TableState) (startRow startCol rowSpan colSpan : Int) :
    Envelope Unit × TableState :=
  match getCell ts.grid startRow startCol with
  | .error m => (respondErr "E_RUNTIME" m, ts)
  | .ok c1 =>
    match getCell ts.grid (startRow + rowSpan - 1) (startCol + colSpan - 1) with
    | .error m => (respondErr "E_RUNTIME" m, ts)
    | .ok c2 => (respond (), hostMerge ts c1 c2)

/-- C8: the opposite corner is `(startRow + rowSpan - 1,
startCol + colSpan - 1)`, and a `rowSpan = colSpan = 1` request merges
the start cell with itself: it succeeds and leaves the table (shape,
contents and merge regions) unchanged. -/
theorem mergeCells_corner (ts : TableState) (r c : Int)
    (h : cellInRange ts.grid r c) :
    mergeCells ts r c 1 1 = (respond (), ts) ∧
    (∀ rs cs : Int, cellInRange ts.grid (r + rs - 1) (c + cs - 1) →
      (mergeCells ts r c rs cs).1 = respond () ∧
      (mergeCells ts r c rs cs).2.grid = ts.grid ∧
      (mergeCells ts r c rs cs).2 =
        hostMerge ts (r.toNat, c.toNat)
          ((r + rs - 1).toNat, (c + cs - 1).toNat)) := by
  constructor
  · have hr : r + 1 - 1 = r := Int.add_sub_cancel r 1
    have hc : c + 1 - 1 = c := Int.add_sub_cancel c 1
    simp [mergeCells, getCell, hr, hc, h, hostMerge]
  · intro rs cs h2
    simp [mergeCells, getCell, h, h2, hostMerge_grid]

/-- Witness for C8 on a concrete 2×2 table: a 1×1 merge at the last cell
succeeds and changes nothing. -/
theorem mergeCells_corner_witness :
    mergeCells ⟨[["a", "b"], ["c", "d"]], []⟩ 1 1 1 1 =
      (respond (), ⟨[["a", "b"], ["c", "d"]], []⟩) :=
  (mergeCells_corner ⟨[["a", "b"], ["c", "d"]], []⟩ 1 1 (by decide)).1

end McpWord
